import Mathlib

/-!
Verification of the Nina platform (build/deploy/ingress daemons) against its
specification.  The Go sources are shallowly embedded: pure helpers become
Lean functions, handlers become functions over explicit store states, and
external effects (Docker, the tar stream, the filesystem) become explicit
input data.  Definitions keep the Go names where Lean allows it.
-/

namespace Nina

/-! ## Status constants (pkg/types/types.go) -/

/-- Constant `DefaultNoContainers = 1` from pkg/types. -/
def DefaultNoContainers : Int := 1

/-- Deployment status `"unavailable"`. -/
def DeploymentStatusUnavailable : String := "unavailable"

/-- Deployment status `"deploying"`. -/
def DeploymentStatusDeploying : String := "deploying"

/-- Deployment status `"ready"`. -/
def DeploymentStatusReady : String := "ready"

/-- Deployment status `"failed"`. -/
def DeploymentStatusFailed : String := "failed"

/-- Build status `"pending"`. -/
def BuildStatusPending : String := "pending"

/-- Build status `"building"`. -/
def BuildStatusBuilding : String := "building"

/-- Build status `"built"`. -/
def BuildStatusBuilt : String := "built"

/-- Build status `"failed"`. -/
def BuildStatusFailed : String := "failed"

/-! ## Path model (Go `path/filepath`, `strings`)

Paths are Unix path strings.  `filepath.Join` concatenates and then cleans;
`filepath.Abs` of an already-absolute path is `Clean` of it.  We model the
cleaning of an absolute path by splitting on `/`, dropping empty and `.`
components, and resolving `..` against the stack. -/

/-- Split a character list on a separator character (semantics of Go
`strings.Split` for a one-character separator). -/
def splitOnChar (sep : Char) : List Char → List (List Char)
  | [] => [[]]
  | c :: cs =>
    match splitOnChar sep cs with
    | [] => [[]]
    | g :: gs => if c = sep then [] :: g :: gs else (c :: g) :: gs

/-- The `/`-separated components of a path string, empty segments dropped. -/
def pathComponents (s : String) : List String :=
  ((splitOnChar '/' s.data).filter (fun g => g ≠ [])).map (fun g => String.mk g)

/-- Resolve `.` and `..` components of an absolute path, as Go
`filepath.Clean` does (a `..` at the root is dropped). -/
def cleanAbs (comps : List String) : List String :=
  comps.foldl
    (fun stack c =>
      if c = "." then stack
      else if c = ".." then stack.dropLast
      else stack ++ [c]) []

/-- Render absolute-path components back to a path string. -/
def renderAbs (comps : List String) : String :=
  if comps = [] then "/" else comps.foldl (fun acc c => acc ++ "/" ++ c) ""

/-- Go `filepath.Abs` on an absolute path: clean it. -/
def goAbs (s : String) : String :=
  renderAbs (cleanAbs (pathComponents s))

/-- Go `filepath.Join` of a directory and a relative entry name. -/
def goJoin (dir name : String) : String :=
  renderAbs (cleanAbs (pathComponents dir ++ pathComponents name))

/-- Go `strings.HasPrefix s pre`. -/
def goHasPrefix (s pre : String) : Bool :=
  pre.data.isPrefixOf s.data

/-- Function `validateTargetPath` from the builder package: accept the target iff
the absolute target string has the absolute temp directory string as a
plain string prefix (returns no error iff this holds). -/
def validateTargetPath (target tempDir : String) : Bool :=
  goHasPrefix (goAbs target) (goAbs tempDir)

/-- A path is within a directory when the cleaned component list of the
directory is a prefix of the cleaned component list of the path. -/
def withinDir (tempDir target : String) : Bool :=
  (cleanAbs (pathComponents tempDir)).isPrefixOf (cleanAbs (pathComponents target))

/-- Decision of `extractTarEntry` for one tar entry: the entry is written to
`filepath.Join tempDir name` when `validateTargetPath` accepts it, and
rejected (an error, nothing written) otherwise. -/
def extractTarEntryTarget (tempDir name : String) : Option String :=
  let target := goJoin tempDir name
  if validateTargetPath target tempDir then some target else none

/-! ## Bundle creation (`NewBundle`)

`NewBundle` base64-decodes the request contents, opens a gzip reader,
creates the scratch directory with `os.MkdirTemp`, and untars into it.
The three fallible stages are modelled by the flags of `BundleEnv`; the
returned pair records the outcome together with whether the scratch
directory exists on disk after `NewBundle` returns. -/

/-- Which stage of `NewBundle` fails, if any. -/
inductive BundleErr where
  | decodeErr
  | gzipErr
  | extractErr
  deriving DecidableEq, Repr

/-- Success/failure of each fallible stage of `NewBundle`. -/
structure BundleEnv where
  decodeOk : Bool
  gzipOk : Bool
  extractOk : Bool
  deriving DecidableEq, Repr

/-- Result of `NewBundle`: the error (if any) paired with whether the
scratch directory is present on disk when `NewBundle` returns.  The code
returns immediately on each error; nothing removes the scratch directory
on the extraction-error path. -/
def NewBundle (env : BundleEnv) : Option BundleErr × Bool :=
  if env.decodeOk = false then (some .decodeErr, false)
  else if env.gzipOk = false then (some .gzipErr, false)
  else
    -- the scratch directory is created here, before extraction
    if env.extractOk = false then (some .extractErr, true)
    else (none, true)

/-! ## Record types (pkg/types/types.go)

Timestamps carry no information the claims need beyond whether
`finished_at` was ever assigned, so `Build` keeps a `finishedAtSet` flag
in place of the `time.Time` field. -/

/-- Structure `types.Container`. -/
structure Container where
  containerID : String
  imageTag : String
  address : String
  port : Int
  deriving DecidableEq, Repr

/-- Structure `types.Deployment` (timestamps omitted). -/
structure Deployment where
  id : String
  appName : String
  commitHash : String
  author : String
  authorEmail : String
  commitMessage : String
  status : String
  containers : List Container
  deriving DecidableEq, Repr

/-- Structure `types.DeploymentRequest`; `replicas` is a Go `int`. -/
structure DeploymentRequest where
  appName : String
  commitHash : String
  author : String
  authorEmail : String
  commitMessage : String
  replicas : Int
  deriving DecidableEq, Repr

/-- Structure `types.Build` (timestamps reduced to the `finishedAtSet` flag). -/
structure Build where
  appName : String
  repoURL : String
  author : String
  authorEmail : String
  commitHash : String
  commitMessage : String
  status : String
  imageTag : String
  imageID : String
  size : Int
  finishedAtSet : Bool
  deriving DecidableEq, Repr

/-- Structure `types.BuildRequest` (bundle contents kept abstract). -/
structure BuildRequest where
  appName : String
  repoURL : String
  author : String
  authorEmail : String
  commitHash : String
  commitMessage : String
  bundleContents : String
  deriving DecidableEq, Repr

/-! ## Store operations (pkg/store)

The Redis keyspace relevant to the claims is modelled as association
lists: new-style deployments are keyed by app name
(`nina-deployment-<app>`), old-style deployments by id (`deployment:<id>`),
builds by commit hash (`nina-build-<hash>`).  Redis writes are taken to
succeed; `GET` of a missing key is `none` (`redis.Nil`). -/

/-- Look up a key in an association list (Redis `GET`). -/
def storeGet {α : Type} (m : List (String × α)) (k : String) : Option α :=
  (m.find? (fun p => p.1 = k)).map Prod.snd

/-- Write a key (Redis `SET`): replace the binding if present, else add it. -/
def storeSet {α : Type} : List (String × α) → String → α → List (String × α)
  | [], k, v => [(k, v)]
  | p :: ps, k, v =>
      if p.1 = k then (k, v) :: ps else p :: storeSet ps k v

/-- Delete a key (Redis `DEL`); deleting a missing key succeeds. -/
def storeDel {α : Type} (m : List (String × α)) (k : String) :
    List (String × α) :=
  m.filter (fun p => p.1 ≠ k)

/-- Method `Store.CreateNewDeployment`: the record as built by the store, with
`Status: types.DeploymentStatusUnavailable` and empty `Containers`.
`genID` stands for the `generateID()` result. -/
def CreateNewDeployment (req : DeploymentRequest) (genID : String) : Deployment :=
  { id := genID
    appName := req.appName
    commitHash := req.commitHash
    author := req.author
    authorEmail := req.authorEmail
    commitMessage := req.commitMessage
    status := DeploymentStatusUnavailable
    containers := [] }

/-- Method `Store.UpdateNewDeploymentStatus`: fetch the record by app name, set
its status, store it back; error (`none`) when the record is missing. -/
def UpdateNewDeploymentStatus (m : List (String × Deployment))
    (appName status : String) : Option (List (String × Deployment)) :=
  match storeGet m appName with
  | none => none
  | some d => some (storeSet m appName { d with status := status })

/-- Method `Store.UpdateNewDeploymentWithContainers`: fetch the record by app
name, replace its containers and status, store it back. -/
def UpdateNewDeploymentWithContainers (m : List (String × Deployment))
    (appName : String) (containers : List Container) (status : String) :
    Option (List (String × Deployment)) :=
  match storeGet m appName with
  | none => none
  | some d =>
      some (storeSet m appName { d with containers := containers, status := status })

/-- Method `Store.DeleteNewDeployment`: delete the key; succeeds even when the
record does not exist. -/
def DeleteNewDeployment (m : List (String × Deployment)) (appName : String) :
    List (String × Deployment) :=
  storeDel m appName

/-- Method `Store.CreateBuild`: the build record as created, with
`Status: types.BuildStatusPending` and no `finished_at`. -/
def CreateBuild (req : BuildRequest) : Build :=
  { appName := req.appName
    repoURL := req.repoURL
    author := req.author
    authorEmail := req.authorEmail
    commitHash := req.commitHash
    commitMessage := req.commitMessage
    status := BuildStatusPending
    imageTag := ""
    imageID := ""
    size := 0
    finishedAtSet := false }

/-- Method `Store.UpdateBuildStatus` on a fetched record: set the status and set
`finished_at` when the new status is `built` or `failed`. -/
def UpdateBuildStatus (b : Build) (status : String) : Build :=
  { b with
    status := status
    finishedAtSet :=
      if status = BuildStatusBuilt ∨ status = BuildStatusFailed then true
      else b.finishedAtSet }

/-- Method `Store.UpdateBuildWithImage` on a fetched record: set status and image
fields, and set `finished_at` when the status is `built` or `failed`. -/
def UpdateBuildWithImage (b : Build) (status imageTag imageID : String)
    (size : Int) : Build :=
  { b with
    status := status
    imageTag := imageTag
    imageID := imageID
    size := size
    finishedAtSet :=
      if status = BuildStatusBuilt ∨ status = BuildStatusFailed then true
      else b.finishedAtSet }

/-- Old-style `store.Deployment` (keyed `deployment:<id>`); only the
fields the delete handler touches. -/
structure OldDeployment where
  id : String
  name : String
  image : String
  status : String
  deriving DecidableEq, Repr

/-! ## Engine (pkg/engine/engine.go)

Handlers are functions of the request and the current store contents.
Redis writes succeed; Docker is an explicit environment: the per-replica
interaction with the Docker daemon is summarized by a `ReplicaOutcome`,
and container removal by a predicate on container ids. -/

/-- Decimal value of a digit list. -/
def digitsToNat (ds : List Char) : Nat :=
  ds.foldl (fun n c => n * 10 + (c.toNat - 48)) 0

/-- Value of an optionally signed digit string, `none` on a syntax
error. -/
def parseGoInt (cs : List Char) : Option Int :=
  match cs with
  | [] => none
  | '-' :: ds =>
      if ds = [] then none
      else if ds.all Char.isDigit then some (-(digitsToNat ds : Int)) else none
  | '+' :: ds =>
      if ds = [] then none
      else if ds.all Char.isDigit then some (digitsToNat ds : Int) else none
  | ds => if ds.all Char.isDigit then some (digitsToNat ds : Int) else none

/-- Go `strconv.Atoi` with the error discarded, as in
`hostPort, _ = strconv.Atoi(...)`: the parsed value, or `0` when the
string is not an integer. -/
def goAtoi (s : String) : Int :=
  (parseGoInt s.data).getD 0

/-- Function `validateDeploymentRequest`: error iff `app_name` or `commit_hash` is
empty (`replicas` is not examined). -/
def validateDeploymentRequest (req : DeploymentRequest) : Bool :=
  !(req.appName = "" || req.commitHash = "")

/-- Method `Store.GetBuild` keyed by commit hash. -/
def GetBuild (builds : List (String × Build)) (commitHash : String) :
    Option Build :=
  storeGet builds commitHash

/-- Function `validateBuildForDeployment`: the build must exist and have status
`built`; `none` models the error return. -/
def validateBuildForDeployment (builds : List (String × Build))
    (commitHash : String) : Option Build :=
  match GetBuild builds commitHash with
  | none => none
  | some build =>
      if build.status = BuildStatusBuilt then some build else none

/-- Interaction of one replica with the Docker daemon inside
`createAndStartContainer`: the create, start, or inspect call can fail,
the inspected port map can lack a binding for `8080/tcp`, or everything
succeeds yielding the created container id and the host-port string of
the first binding. -/
inductive ReplicaOutcome where
  | createErr
  | startErr
  | inspectErr
  | noBinding
  | ok (containerID : String) (hostPort : String)
  deriving DecidableEq, Repr

/-- Function `createAndStartContainer`: on full success, the container record uses
the Docker-assigned id and `strconv.Atoi` of the host-port string (parse
errors discarded, yielding port `0`); any Docker failure aborts the
replica (`none` models the error return). -/
def createAndStartContainer (imageTag : String) (o : ReplicaOutcome) :
    Option Container :=
  match o with
  | .createErr => none
  | .startErr => none
  | .inspectErr => none
  | .noBinding => none
  | .ok containerID hostPort =>
      some { containerID := containerID
             imageTag := imageTag
             address := "localhost"
             port := goAtoi hostPort }

/-- The replica loop of `deployContainers`: create and start one container
per index, aborting on the first failure. -/
def deployLoop (imageTag : String) (out : Nat → ReplicaOutcome) :
    List Nat → Option (List Container)
  | [] => some []
  | i :: is =>
    match createAndStartContainer imageTag (out i) with
    | none => none
    | some c =>
      match deployLoop imageTag out is with
      | none => none
      | some cs => some (c :: cs)

/-- Function `deployContainers` up to the store update: the Go loop
`for i := 0; i < replicas; i++` runs `replicas.toNat` times (a Go `int`
bound that is zero or negative gives zero iterations). -/
def deployContainers (imageTag : String) (replicas : Int)
    (out : Nat → ReplicaOutcome) : Option (List Container) :=
  deployLoop imageTag out (List.range replicas.toNat)

/-- The background goroutine of `deployHandler`: run `deployContainers`;
on success store the container list with status `ready`, on failure set
status `failed` (store errors are only logged). -/
def deployBackground (m : List (String × Deployment)) (req : DeploymentRequest)
    (imageTag : String) (out : Nat → ReplicaOutcome) :
    List (String × Deployment) :=
  match deployContainers imageTag req.replicas out with
  | some containers =>
      (UpdateNewDeploymentWithContainers m req.appName containers
        DeploymentStatusReady).getD m
  | none =>
      (UpdateNewDeploymentStatus m req.appName DeploymentStatusFailed).getD m

/-- Response of the synchronous part of `deployHandler`.  (The 500 paths
require a store write failure and cannot occur in this reliable-store
model.) -/
inductive DeployResponse where
  | badRequest (msg : String)
  | created (d : Deployment)
  deriving DecidableEq, Repr

/-- The synchronous part of `deployHandler`: validate the request, gate on
a `built` build, create the deployment record (status `unavailable`),
update the stored status to `deploying` (failure only logged), and reply
201 with the record as created. -/
def deployHandlerSync (builds : List (String × Build))
    (deps : List (String × Deployment)) (req : DeploymentRequest)
    (genID : String) : DeployResponse × List (String × Deployment) :=
  if validateDeploymentRequest req = false then
    (.badRequest "app name and commit hash are required", deps)
  else
    match validateBuildForDeployment builds req.commitHash with
    | none => (.badRequest "build is not ready for deployment", deps)
    | some _ =>
      let d := CreateNewDeployment req genID
      let deps0 := storeSet deps req.appName d
      let deps1 :=
        (UpdateNewDeploymentStatus deps0 req.appName
          DeploymentStatusDeploying).getD deps0
      (.created d, deps1)

/-- Store states visible during one deploy of `req`: after record
creation, after the status update to `deploying`, and after the
background container deployment. -/
def deployPipelineStores (m : List (String × Deployment))
    (req : DeploymentRequest) (genID imageTag : String)
    (out : Nat → ReplicaOutcome) : List (List (String × Deployment)) :=
  let m0 := storeSet m req.appName (CreateNewDeployment req genID)
  let m1 :=
    (UpdateNewDeploymentStatus m0 req.appName DeploymentStatusDeploying).getD m0
  let m2 := deployBackground m1 req imageTag out
  [m0, m1, m2]

/-- Response of `deleteDeploymentHandler`: the HTTP status code and the
`containers_removed` count when the response carries one. -/
structure DeleteResponse where
  code : Nat
  containersRemoved : Option Nat
  deriving DecidableEq, Repr

/-- Handler `deleteDeploymentHandler`: try the new-style record under the id (the
key is the app name); if found, force-remove each container with a
non-empty id (counting successes), delete the record, and reply 200 with
the count.  Otherwise fall back to the old-style record; if that is also
missing, reply 404. -/
def deleteDeploymentHandler (newDeps : List (String × Deployment))
    (oldDeps : List (String × OldDeployment)) (removeOk : String → Bool)
    (id : String) :
    DeleteResponse × List (String × Deployment) × List (String × OldDeployment) :=
  if id = "" then (⟨400, none⟩, newDeps, oldDeps)
  else
    match storeGet newDeps id with
    | some deployment =>
        let containersRemoved :=
          (deployment.containers.filter
            (fun c => (c.containerID != "") && removeOk c.containerID)).length
        (⟨200, some containersRemoved⟩, DeleteNewDeployment newDeps id, oldDeps)
    | none =>
        match storeGet oldDeps id with
        | some _ => (⟨200, none⟩, newDeps, storeDel oldDeps id)
        | none => (⟨404, none⟩, newDeps, oldDeps)

/-! ## Build pipeline (`buildHandler` and helpers)

The fallible stages after record creation — bundle extraction, buildpack
matching (which can error or find no buildpack), and the image build —
are summarized by `BuildEnv`.  `buildPipelineRecords` is the sequence of
build-record values successively stored for the commit hash of the request. -/

/-- Outcome flags for the fallible stages of one run of `buildHandler`. -/
structure BuildEnv where
  extractOk : Bool
  matchCallOk : Bool
  matchFound : Bool
  buildOk : Bool
  deriving DecidableEq, Repr

/-- The successive values stored in the build record of `req.commitHash`
during one run of `buildHandler`: `createBuildRecord` stores the pending
record; extraction or matching failure stores `failed`; otherwise
`buildProject` stores `building`, then `built` with the image data on
success or `failed` on build error. -/
def buildPipelineRecords (req : BuildRequest) (env : BuildEnv)
    (imageTag imageID : String) (size : Int) : List Build :=
  let b0 := CreateBuild req
  if env.extractOk = false then
    [b0, UpdateBuildStatus b0 BuildStatusFailed]
  else if env.matchCallOk = false then
    [b0, UpdateBuildStatus b0 BuildStatusFailed]
  else if env.matchFound = false then
    [b0, UpdateBuildStatus b0 BuildStatusFailed]
  else
    let b1 := UpdateBuildStatus b0 BuildStatusBuilding
    if env.buildOk then
      [b0, b1, UpdateBuildWithImage b1 BuildStatusBuilt imageTag imageID size]
    else
      [b0, b1, UpdateBuildStatus b1 BuildStatusFailed]

/-! ## Ingress (pkg/ingress/ingress.go)

`handleRequest` is a function of the deployment snapshot, the request
host, and a number abstracting the random replica draw. -/

/-- Structure `ErrorResponse` from the ingress package. -/
structure ErrorResponse where
  error : String
  message : String
  deriving DecidableEq, Repr

/-- The JSON document `json.Encoder.Encode` writes for an
`ErrorResponse` (the trailing newline of the encoder is dropped). -/
def encodeErrorResponse (e : ErrorResponse) : String :=
  "\x7b\"error\":\"" ++ e.error ++ "\",\"message\":\"" ++ e.message ++ "\"\x7d"

/-- Function `extractHost`: strip everything from the first `:` of the request
host, as `strings.Split(host, ":")[0]` does when the host contains a
colon. -/
def extractHost (host : String) : String :=
  if host.data.contains ':' then
    String.mk ((splitOnChar ':' host.data).headD [])
  else host

/-- Function `findDeploymentByAppName`: first deployment of the snapshot whose
`app_name` equals the host. -/
def findDeploymentByAppName (deployments : List Deployment)
    (appName : String) : Option Deployment :=
  deployments.find? (fun d => d.appName = appName)

/-- Function `selectRandomReplica`: `nil` when the deployment has no containers,
else the container at a uniformly drawn index (`r` abstracts the
`crypto/rand` draw; the RNG-error fallback picks index 0, also of this
form). -/
def selectRandomReplica (d : Deployment) (r : Nat) : Option Container :=
  if d.containers.length = 0 then none
  else d.containers.get? (r % d.containers.length)

/-- Outcome of `handleRequest`: a JSON error response, or the request is
proxied to the selected container. -/
inductive IngressResponse where
  | jsonError (code : Nat) (body : String)
  | proxied (c : Container)
  deriving DecidableEq, Repr

/-- Handler `handleRequest`: route by the port-stripped host; 404 with the
`unknown_application` body when no deployment matches; 503 with the
`no_replicas_available` body when the matched deployment has no
containers; otherwise proxy to the selected replica. -/
def handleRequest (snapshot : List Deployment) (host : String) (r : Nat) :
    IngressResponse :=
  let h := extractHost host
  match findDeploymentByAppName snapshot h with
  | none =>
      .jsonError 404
        (encodeErrorResponse ⟨"unknown_application", "unknown application"⟩)
  | some deployment =>
      match selectRandomReplica deployment r with
      | none =>
          .jsonError 503
            (encodeErrorResponse ⟨"no_replicas_available", "no replicas available"⟩)
      | some c => .proxied c

/-! ## Go buildpack detection (internal/pkg/builder/buildpack_golang.go)

The scratch tree is modelled one level deep, which is all `Match` reads:
the file names at the scratch root, the subdirectories in the sorted
order `os.ReadDir` returns, and for each directory the parse result of
its `main.go` (`none` when parsing fails). -/

/-- One subdirectory of the scratch root. -/
structure SubDir where
  name : String
  files : List String
  mainGoPkg : Option String
  deriving DecidableEq, Repr

/-- The scratch tree as `Match` observes it. -/
structure ScratchTree where
  rootFiles : List String
  rootSubdirs : List SubDir
  rootMainGoPkg : Option String
  deriving DecidableEq, Repr

/-- What `Match` reads from a candidate base directory. -/
structure BaseDirView where
  files : List String
  mainGoPkg : Option String
  deriving DecidableEq, Repr

/-- The scratch root as a base directory. -/
def rootView (fs : ScratchTree) : BaseDirView :=
  ⟨fs.rootFiles, fs.rootMainGoPkg⟩

/-- A subdirectory as a base directory. -/
def subView (d : SubDir) : BaseDirView :=
  ⟨d.files, d.mainGoPkg⟩

/-- Method `BuildpackGolang.Match`, following the control flow of the code: pick the
base directory (the root when it holds `go.mod`, else the first directory
entry of the sorted listing, else the root again), then require `go.mod`,
`go.sum`, `main.go`, and a `main` package clause, failing at the first
missing piece. -/
def Match (fs : ScratchTree) : Bool :=
  let base :=
    if "go.mod" ∈ fs.rootFiles then rootView fs
    else
      match fs.rootSubdirs.head? with
      | some d => subView d
      | none => rootView fs
  if ("go.mod" ∈ base.files) = false then false
  else if ("go.sum" ∈ base.files) = false then false
  else if ("main.go" ∈ base.files) = false then false
  else
    match base.mainGoPkg with
    | none => false
    | some pkg => pkg = "main"

/-- The wording of the claim for Go buildpack detection: with the base
directory taken to be the scratch root when it contains `go.mod` and the
first subdirectory alphabetically otherwise (detection fails when
neither exists), detection succeeds iff the base directory contains
`go.mod`, `go.sum`, and `main.go` and `main.go` parses with package
clause exactly `main`. -/
def MatchSpec (fs : ScratchTree) : Bool :=
  let baseOpt : Option BaseDirView :=
    if "go.mod" ∈ fs.rootFiles then some (rootView fs)
    else (fs.rootSubdirs.head?).map subView
  match baseOpt with
  | none => false
  | some base =>
      decide ("go.mod" ∈ base.files) && decide ("go.sum" ∈ base.files) &&
      decide ("main.go" ∈ base.files) && decide (base.mainGoPkg = some "main")

/-! ## Splitting lemmas -/

/-- Splitting never yields an empty group list. -/
theorem splitOnChar_ne_nil (sep : Char) (l : List Char) :
    splitOnChar sep l ≠ [] := by
  cases l with
  | nil => simp [splitOnChar]
  | cons c cs =>
    unfold splitOnChar
    cases h : splitOnChar sep cs with
    | nil => simp
    | cons g gs => by_cases hc : c = sep <;> simp [hc]

/-- A separator-free list splits into itself. -/
theorem splitOnChar_no_sep (sep : Char) (a : List Char) (h : sep ∉ a) :
    splitOnChar sep a = [a] := by
  induction a with
  | nil => simp [splitOnChar]
  | cons c cs ih =>
    have hc : c ≠ sep := fun hcc => h (hcc ▸ List.mem_cons_self c cs)
    have hcs : sep ∉ cs := fun hmem => h (List.mem_cons_of_mem c hmem)
    unfold splitOnChar
    rw [ih hcs]
    simp [hc]

/-- Unfolding equation of `splitOnChar` on a cons cell. -/
theorem splitOnChar_cons (sep c : Char) (cs : List Char) :
    splitOnChar sep (c :: cs) =
      match splitOnChar sep cs with
      | [] => [[]]
      | g :: gs => if c = sep then [] :: g :: gs else (c :: g) :: gs := rfl

/-- Splitting at the first separator occurrence detaches the prefix. -/
theorem splitOnChar_append_sep (sep : Char) (a b : List Char) (h : sep ∉ a) :
    splitOnChar sep (a ++ sep :: b) = a :: splitOnChar sep b := by
  induction a with
  | nil =>
    rw [List.nil_append, splitOnChar_cons]
    cases hb : splitOnChar sep b with
    | nil => exact absurd hb (splitOnChar_ne_nil sep b)
    | cons g gs => simp [hb]
  | cons c cs ih =>
    have hc : c ≠ sep := fun hcc => h (hcc ▸ List.mem_cons_self c cs)
    have hcs : sep ∉ cs := fun hmem => h (List.mem_cons_of_mem c hmem)
    rw [List.cons_append, splitOnChar_cons, ih hcs]
    simp [hc]

/-! ## Store lemmas -/

/-- Reading back a key just written returns the written value. -/
theorem storeGet_storeSet_self {α : Type} (m : List (String × α)) (k : String)
    (v : α) : storeGet (storeSet m k v) k = some v := by
  induction m with
  | nil => simp [storeSet, storeGet, List.find?]
  | cons p ps ih =>
    by_cases h : p.1 = k
    · simp [storeSet, h, storeGet, List.find?]
    · simpa [storeSet, h, storeGet, List.find?] using ih

/-- Reading a key just deleted returns nothing. -/
theorem storeGet_storeDel {α : Type} (m : List (String × α)) (k : String) :
    storeGet (storeDel m k) k = none := by
  simp [storeDel, storeGet, List.find?_eq_none]

/-- Deleting a key twice equals deleting it once. -/
theorem storeDel_storeDel {α : Type} (m : List (String × α)) (k : String) :
    storeDel (storeDel m k) k = storeDel m k := by
  simp [storeDel, List.filter_filter]

/-! ## Replica-loop lemmas -/

/-- A successful replica loop yields one container per index. -/
theorem deployLoop_length (imageTag : String) (out : Nat → ReplicaOutcome) :
    ∀ l cs, deployLoop imageTag out l = some cs → cs.length = l.length := by
  intro l
  induction l with
  | nil => intro cs h; simp [deployLoop] at h; simp [← h]
  | cons i is ih =>
    intro cs h
    unfold deployLoop at h
    cases hc : createAndStartContainer imageTag (out i) with
    | none => rw [hc] at h; exact absurd h (by simp)
    | some c =>
      rw [hc] at h
      cases hl : deployLoop imageTag out is with
      | none => rw [hl] at h; exact absurd h (by simp)
      | some cs0 =>
        rw [hl] at h
        simp at h
        simp [← h, ih cs0 hl]

/-- Every container a successful replica loop yields comes from a
successful `createAndStartContainer` call of some index of the loop. -/
theorem deployLoop_mem (imageTag : String) (out : Nat → ReplicaOutcome) :
    ∀ l cs, deployLoop imageTag out l = some cs →
      ∀ c ∈ cs, ∃ i, i ∈ l ∧ createAndStartContainer imageTag (out i) = some c := by
  intro l
  induction l with
  | nil => intro cs h; simp [deployLoop] at h; subst h; simp
  | cons i is ih =>
    intro cs h
    unfold deployLoop at h
    cases hc : createAndStartContainer imageTag (out i) with
    | none => rw [hc] at h; exact absurd h (by simp)
    | some c0 =>
      rw [hc] at h
      cases hl : deployLoop imageTag out is with
      | none => rw [hl] at h; exact absurd h (by simp)
      | some cs0 =>
        rw [hl] at h
        simp at h
        intro c hcmem
        rw [← h] at hcmem
        rcases List.mem_cons.mp hcmem with hceq | hctail
        · exact ⟨i, List.mem_cons_self i is, by rw [hc, hceq]⟩
        · obtain ⟨j, hj, hjc⟩ := ih cs0 hl c hctail
          exact ⟨j, List.mem_cons_of_mem i hj, hjc⟩

/-- A successful `createAndStartContainer` call comes from a successful
Docker round-trip, and determines the id and port of the container. -/
theorem createAndStartContainer_ok (imageTag : String) (o : ReplicaOutcome)
    (c : Container) (h : createAndStartContainer imageTag o = some c) :
    ∃ cid hp, o = .ok cid hp ∧ c.containerID = cid ∧ c.port = goAtoi hp := by
  cases o with
  | createErr => exact absurd h (by simp [createAndStartContainer])
  | startErr => exact absurd h (by simp [createAndStartContainer])
  | inspectErr => exact absurd h (by simp [createAndStartContainer])
  | noBinding => exact absurd h (by simp [createAndStartContainer])
  | ok cid hp =>
    refine ⟨cid, hp, rfl, ?_, ?_⟩ <;>
      simp [createAndStartContainer] at h <;> simp [← h]

/-- The deployment record readable under the app name at each store state
of one deploy pipeline run: the record as created, the record at
`deploying`, and — depending on the replica outcomes — the record at
`ready` holding the deployed containers or the record at `failed`. -/
theorem deployPipelineStores_get (m : List (String × Deployment))
    (req : DeploymentRequest) (genID imageTag : String)
    (out : Nat → ReplicaOutcome) :
    ∀ m' ∈ deployPipelineStores m req genID imageTag out,
      ∃ d, storeGet m' req.appName = some d ∧
        (d = CreateNewDeployment req genID ∨
         d = { CreateNewDeployment req genID with
                 status := DeploymentStatusDeploying } ∨
         (∃ cs, deployContainers imageTag req.replicas out = some cs ∧
            d = { CreateNewDeployment req genID with
                    containers := cs, status := DeploymentStatusReady }) ∨
         (deployContainers imageTag req.replicas out = none ∧
            d = { CreateNewDeployment req genID with
                    status := DeploymentStatusFailed })) := by
  intro m' hm'
  have h0 : storeGet (storeSet m req.appName (CreateNewDeployment req genID))
      req.appName = some (CreateNewDeployment req genID) :=
    storeGet_storeSet_self m req.appName (CreateNewDeployment req genID)
  have hm1 : UpdateNewDeploymentStatus
      (storeSet m req.appName (CreateNewDeployment req genID)) req.appName
      DeploymentStatusDeploying =
      some (storeSet (storeSet m req.appName (CreateNewDeployment req genID))
        req.appName
        { CreateNewDeployment req genID with status := DeploymentStatusDeploying }) := by
    simp [UpdateNewDeploymentStatus, h0]
  have h1 : storeGet
      (storeSet (storeSet m req.appName (CreateNewDeployment req genID))
        req.appName
        { CreateNewDeployment req genID with status := DeploymentStatusDeploying })
      req.appName =
      some { CreateNewDeployment req genID with status := DeploymentStatusDeploying } :=
    storeGet_storeSet_self _ _ _
  simp only [deployPipelineStores, hm1, Option.getD_some, List.mem_cons,
    List.not_mem_nil, or_false] at hm'
  rcases hm' with h | h | h
  · exact ⟨CreateNewDeployment req genID, by rw [h]; exact h0, Or.inl rfl⟩
  · exact ⟨{ CreateNewDeployment req genID with status := DeploymentStatusDeploying },
      by rw [h]; exact h1, Or.inr (Or.inl rfl)⟩
  · rw [h]
    unfold deployBackground
    cases hdc : deployContainers imageTag req.replicas out with
    | some cs =>
      refine ⟨{ CreateNewDeployment req genID with
                  containers := cs, status := DeploymentStatusReady }, ?_,
              Or.inr (Or.inr (Or.inl ⟨cs, rfl, rfl⟩))⟩
      simp [UpdateNewDeploymentWithContainers, h1]
      exact storeGet_storeSet_self _ _ _
    | none =>
      refine ⟨{ CreateNewDeployment req genID with
                  status := DeploymentStatusFailed }, ?_,
              Or.inr (Or.inr (Or.inr ⟨rfl, rfl⟩))⟩
      simp [UpdateNewDeploymentStatus, h1]
      exact storeGet_storeSet_self _ _ _

end Nina

/-! ## C2 theorems -/

/-- C2: along one deploy of `req` — starting from any store contents —
every record read back under the app name whose status is `ready` holds
exactly `req.replicas` containers, each with a non-empty container id and
a positive port.  The hypotheses state that the requested replica count
is non-negative (the spec types `replicas` as a positive integer) and
that Docker reports non-empty container ids and positive numeric host
ports. -/
theorem deploy_ready_invariant (m : List (String × Nina.Deployment))
    (req : Nina.DeploymentRequest) (genID imageTag : String)
    (out : Nat → Nina.ReplicaOutcome)
    (hrep : 0 ≤ req.replicas)
    (hwf : ∀ i cid hp, out i = Nina.ReplicaOutcome.ok cid hp →
      cid ≠ "" ∧ 0 < Nina.goAtoi hp) :
    ∀ m' ∈ Nina.deployPipelineStores m req genID imageTag out,
      ∀ d, Nina.storeGet m' req.appName = some d →
        d.status = Nina.DeploymentStatusReady →
          (d.containers.length : Int) = req.replicas ∧
          ∀ c ∈ d.containers, c.containerID ≠ "" ∧ 0 < c.port := by
  intro m' hm' d hd hready
  obtain ⟨d', hd', hcase⟩ :=
    Nina.deployPipelineStores_get m req genID imageTag out m' hm'
  rw [hd] at hd'
  obtain rfl : d = d' := by exact Option.some.inj hd'
  rcases hcase with h | h | ⟨cs, hcs, h⟩ | ⟨_, h⟩
  · rw [h] at hready
    exact absurd hready (by simp [Nina.CreateNewDeployment,
      Nina.DeploymentStatusUnavailable, Nina.DeploymentStatusReady])
  · rw [h] at hready
    exact absurd hready (by simp [Nina.CreateNewDeployment,
      Nina.DeploymentStatusDeploying, Nina.DeploymentStatusReady])
  · subst h
    constructor
    · have hlen := Nina.deployLoop_length imageTag out
        (List.range req.replicas.toNat) cs hcs
      simp [List.length_range] at hlen
      simp [hlen, Int.toNat_of_nonneg hrep]
    · intro c hc
      obtain ⟨i, _, hok⟩ := Nina.deployLoop_mem imageTag out
        (List.range req.replicas.toNat) cs hcs c hc
      obtain ⟨cid, hp, hout, hcid, hport⟩ :=
        Nina.createAndStartContainer_ok imageTag (out i) c hok
      obtain ⟨hne, hpos⟩ := hwf i cid hp hout
      exact ⟨by rw [hcid]; exact hne, by rw [hport]; exact hpos⟩
  · rw [h] at hready
    exact absurd hready (by simp [Nina.CreateNewDeployment,
      Nina.DeploymentStatusFailed, Nina.DeploymentStatusReady])

/-- Witness for `deploy_ready_invariant`: two replicas, a Docker
environment answering id `cid-1` and host port `8081`. -/
theorem deploy_ready_invariant_witness :
    0 ≤ (⟨"demo", "abc123", "a", "a@x", "m", 2⟩ : Nina.DeploymentRequest).replicas ∧
    ∀ m' ∈ Nina.deployPipelineStores [] ⟨"demo", "abc123", "a", "a@x", "m", 2⟩
        "id1" "img" (fun _ => Nina.ReplicaOutcome.ok "cid-1" "8081"),
      ∀ d, Nina.storeGet m' "demo" = some d →
        d.status = Nina.DeploymentStatusReady →
          (d.containers.length : Int) =
            (⟨"demo", "abc123", "a", "a@x", "m", 2⟩ : Nina.DeploymentRequest).replicas ∧
          ∀ c ∈ d.containers, c.containerID ≠ "" ∧ 0 < c.port :=
  ⟨by decide,
   deploy_ready_invariant [] ⟨"demo", "abc123", "a", "a@x", "m", 2⟩ "id1" "img"
     (fun _ => Nina.ReplicaOutcome.ok "cid-1" "8081") (by decide)
     (fun i cid hp h => by
       cases h
       exact ⟨by decide, by decide⟩)⟩

/-! ## C3 theorems -/

/-- C3: the deploy handler does not validate `replicas`.  A request with
`replicas = 0` passes `validateDeploymentRequest`, is answered 201 when a
`built` build exists, and the background deployment then marks the
deployment `ready` with an empty containers list — it is neither rejected
nor coerced to one replica. -/
theorem deploy_replicas_zero_ready_empty :
    Nina.validateDeploymentRequest ⟨"demo", "abc123", "a", "a@x", "m", 0⟩ = true ∧
    (Nina.deployHandlerSync
        [("abc123", ⟨"demo", "", "a", "a@x", "abc123", "m", "built", "img", "sha", 10, true⟩)]
        [] ⟨"demo", "abc123", "a", "a@x", "m", 0⟩ "id1").1 =
      Nina.DeployResponse.created
        (Nina.CreateNewDeployment ⟨"demo", "abc123", "a", "a@x", "m", 0⟩ "id1") ∧
    ((Nina.storeGet
        ((Nina.deployPipelineStores [] ⟨"demo", "abc123", "a", "a@x", "m", 0⟩
            "id1" "img" (fun _ => Nina.ReplicaOutcome.createErr)).getD 2 [])
        "demo").map (fun d => (d.status, d.containers))) =
      some (Nina.DeploymentStatusReady, []) := by
  decide

/-! ## C4 theorems -/

/-- C4: the deploy handler replies 400 and leaves the deployment store
untouched whenever the commit hash has no build record or its build is
not `built`; when the request is well-formed and a `built` build exists,
it replies 201 carrying the deployment record it created. -/
theorem deployHandler_requires_built_build (builds : List (String × Nina.Build))
    (deps : List (String × Nina.Deployment)) (req : Nina.DeploymentRequest)
    (genID : String) :
    ((∀ b, Nina.GetBuild builds req.commitHash = some b →
        b.status ≠ Nina.BuildStatusBuilt) →
      (∃ msg, (Nina.deployHandlerSync builds deps req genID).1 =
        Nina.DeployResponse.badRequest msg) ∧
      (Nina.deployHandlerSync builds deps req genID).2 = deps) ∧
    (Nina.validateDeploymentRequest req = true →
      ∀ b, Nina.GetBuild builds req.commitHash = some b →
        b.status = Nina.BuildStatusBuilt →
          (Nina.deployHandlerSync builds deps req genID).1 =
            Nina.DeployResponse.created (Nina.CreateNewDeployment req genID)) := by
  constructor
  · intro hnotbuilt
    cases hval : Nina.validateDeploymentRequest req with
    | false =>
      constructor
      · exact ⟨"app name and commit hash are required",
          by simp [Nina.deployHandlerSync, hval]⟩
      · simp [Nina.deployHandlerSync, hval]
    | true =>
      have hvb : Nina.validateBuildForDeployment builds req.commitHash = none := by
        unfold Nina.validateBuildForDeployment
        cases hg : Nina.GetBuild builds req.commitHash with
        | none => rfl
        | some b => simp [hnotbuilt b hg]
      constructor
      · exact ⟨"build is not ready for deployment",
          by simp [Nina.deployHandlerSync, hval, hvb]⟩
      · simp [Nina.deployHandlerSync, hval, hvb]
  · intro hval b hg hbuilt
    have hvb : Nina.validateBuildForDeployment builds req.commitHash = some b := by
      simp [Nina.validateBuildForDeployment, hg, hbuilt]
    simp [Nina.deployHandlerSync, hval, hvb]

/-- Witness for `deployHandler_requires_built_build`: with an empty build
store the handler replies 400 without writing; with a `built` build it
replies 201 with the created record. -/
theorem deployHandler_requires_built_build_witness :
    ((∃ msg, (Nina.deployHandlerSync [] [] ⟨"demo", "xyz789", "a", "a@x", "m", 1⟩
        "id1").1 = Nina.DeployResponse.badRequest msg) ∧
      (Nina.deployHandlerSync [] [] ⟨"demo", "xyz789", "a", "a@x", "m", 1⟩
        "id1").2 = []) ∧
    (Nina.deployHandlerSync
        [("abc123", ⟨"demo", "", "a", "a@x", "abc123", "m", "built", "img", "sha", 10, true⟩)]
        [] ⟨"demo", "abc123", "a", "a@x", "m", 1⟩ "id1").1 =
      Nina.DeployResponse.created
        (Nina.CreateNewDeployment ⟨"demo", "abc123", "a", "a@x", "m", 1⟩ "id1") :=
  ⟨(deployHandler_requires_built_build [] [] ⟨"demo", "xyz789", "a", "a@x", "m", 1⟩
      "id1").1 (by intro b hb; simp [Nina.GetBuild, Nina.storeGet, List.find?] at hb),
   (deployHandler_requires_built_build
      [("abc123", ⟨"demo", "", "a", "a@x", "abc123", "m", "built", "img", "sha", 10, true⟩)]
      [] ⟨"demo", "abc123", "a", "a@x", "m", 1⟩ "id1").2 (by decide)
      ⟨"demo", "", "a", "a@x", "abc123", "m", "built", "img", "sha", 10, true⟩
      (by decide) (by decide)⟩

/-! ## C9 theorems -/

/-- C9 counterexample: on a successful intake the 201 response carries
the record as created, whose status is `unavailable`, not `deploying`. -/
theorem deploy_intake_returns_unavailable :
    (Nina.deployHandlerSync
        [("abc123", ⟨"demo", "", "a", "a@x", "abc123", "m", "built", "img", "sha", 10, true⟩)]
        [] ⟨"demo", "abc123", "a", "a@x", "m", 1⟩ "id1").1 =
      Nina.DeployResponse.created
        (Nina.CreateNewDeployment ⟨"demo", "abc123", "a", "a@x", "m", 1⟩ "id1") ∧
    (Nina.CreateNewDeployment ⟨"demo", "abc123", "a", "a@x", "m", 1⟩ "id1").status =
      Nina.DeploymentStatusUnavailable ∧
    (Nina.CreateNewDeployment ⟨"demo", "abc123", "a", "a@x", "m", 1⟩ "id1").status ≠
      Nina.DeploymentStatusDeploying := by
  decide

/-- C9 amended: successful intake creates the record with status
`unavailable` and empty containers, immediately updates the stored status
to `deploying` (still with empty containers), and replies 201 with the
record as created — so the response body says `unavailable` while the
store says `deploying`. -/
theorem deploy_intake_creates_then_updates (builds : List (String × Nina.Build))
    (deps : List (String × Nina.Deployment)) (req : Nina.DeploymentRequest)
    (genID : String) (b : Nina.Build)
    (hval : Nina.validateDeploymentRequest req = true)
    (hg : Nina.GetBuild builds req.commitHash = some b)
    (hbuilt : b.status = Nina.BuildStatusBuilt) :
    (Nina.deployHandlerSync builds deps req genID).1 =
      Nina.DeployResponse.created (Nina.CreateNewDeployment req genID) ∧
    (Nina.CreateNewDeployment req genID).status = Nina.DeploymentStatusUnavailable ∧
    (Nina.CreateNewDeployment req genID).containers = [] ∧
    Nina.storeGet (Nina.deployHandlerSync builds deps req genID).2 req.appName =
      some { Nina.CreateNewDeployment req genID with
               status := Nina.DeploymentStatusDeploying } := by
  have hvb : Nina.validateBuildForDeployment builds req.commitHash = some b := by
    simp [Nina.validateBuildForDeployment, hg, hbuilt]
  have h0 : Nina.storeGet
      (Nina.storeSet deps req.appName (Nina.CreateNewDeployment req genID))
      req.appName = some (Nina.CreateNewDeployment req genID) :=
    Nina.storeGet_storeSet_self _ _ _
  refine ⟨by simp [Nina.deployHandlerSync, hval, hvb], rfl, rfl, ?_⟩
  simp [Nina.deployHandlerSync, hval, hvb, Nina.UpdateNewDeploymentStatus, h0]
  exact Nina.storeGet_storeSet_self _ _ _

/-- Witness for `deploy_intake_creates_then_updates` at a concrete
request and build store. -/
theorem deploy_intake_creates_then_updates_witness :
    (Nina.deployHandlerSync
        [("abc123", ⟨"demo", "", "a", "a@x", "abc123", "m", "built", "img", "sha", 10, true⟩)]
        [] ⟨"demo", "abc123", "a", "a@x", "m", 1⟩ "id1").1 =
      Nina.DeployResponse.created
        (Nina.CreateNewDeployment ⟨"demo", "abc123", "a", "a@x", "m", 1⟩ "id1") ∧
    (Nina.CreateNewDeployment ⟨"demo", "abc123", "a", "a@x", "m", 1⟩ "id1").status =
      Nina.DeploymentStatusUnavailable ∧
    (Nina.CreateNewDeployment ⟨"demo", "abc123", "a", "a@x", "m", 1⟩ "id1").containers = [] ∧
    Nina.storeGet
      (Nina.deployHandlerSync
        [("abc123", ⟨"demo", "", "a", "a@x", "abc123", "m", "built", "img", "sha", 10, true⟩)]
        [] ⟨"demo", "abc123", "a", "a@x", "m", 1⟩ "id1").2 "demo" =
      some { Nina.CreateNewDeployment ⟨"demo", "abc123", "a", "a@x", "m", 1⟩ "id1" with
               status := Nina.DeploymentStatusDeploying } :=
  deploy_intake_creates_then_updates
    [("abc123", ⟨"demo", "", "a", "a@x", "abc123", "m", "built", "img", "sha", 10, true⟩)]
    [] ⟨"demo", "abc123", "a", "a@x", "m", 1⟩ "id1"
    ⟨"demo", "", "a", "a@x", "abc123", "m", "built", "img", "sha", 10, true⟩
    (by decide) (by decide) (by decide)

/-! ## C6 theorems -/

/-- C6: in any run of the build pipeline the statuses successively stored
for the commit hash form a prefix of `pending → building → built` or end
in `failed`, and every stored record has `finished_at` set exactly when
its status is `built` or `failed`. -/
theorem build_status_monotone (req : Nina.BuildRequest) (env : Nina.BuildEnv)
    (imageTag imageID : String) (size : Int) :
    ((Nina.buildPipelineRecords req env imageTag imageID size).map Nina.Build.status <+:
        [Nina.BuildStatusPending, Nina.BuildStatusBuilding, Nina.BuildStatusBuilt] ∨
      ((Nina.buildPipelineRecords req env imageTag imageID size).map
          Nina.Build.status).getLast? = some Nina.BuildStatusFailed) ∧
    ∀ b ∈ Nina.buildPipelineRecords req env imageTag imageID size,
      (b.finishedAtSet = true ↔
        (b.status = Nina.BuildStatusBuilt ∨ b.status = Nina.BuildStatusFailed)) := by
  obtain ⟨e, mc, mf, bo⟩ := env
  cases e <;> cases mc <;> cases mf <;> cases bo <;>
    simp [Nina.buildPipelineRecords, Nina.CreateBuild, Nina.UpdateBuildStatus,
      Nina.UpdateBuildWithImage, Nina.BuildStatusPending, Nina.BuildStatusBuilding,
      Nina.BuildStatusBuilt, Nina.BuildStatusFailed, List.getLast?,
      List.IsPrefix]

/-! ## C8 theorems -/

/-- C8 counterexample: deleting the deployment `demo` succeeds (200, one
container removed), but the second identical call is answered 404, not
200 with zero containers removed. -/
theorem deleteDeployment_second_call_404 :
    (Nina.deleteDeploymentHandler
        [("demo", ⟨"id1", "demo", "abc123", "a", "a@x", "m", "ready",
           [⟨"c1", "img", "localhost", 8081⟩]⟩)]
        [] (fun _ => true) "demo").1 = ⟨200, some 1⟩ ∧
    (Nina.deleteDeploymentHandler
        (Nina.deleteDeploymentHandler
          [("demo", ⟨"id1", "demo", "abc123", "a", "a@x", "m", "ready",
             [⟨"c1", "img", "localhost", 8081⟩]⟩)]
          [] (fun _ => true) "demo").2.1
        (Nina.deleteDeploymentHandler
          [("demo", ⟨"id1", "demo", "abc123", "a", "a@x", "m", "ready",
             [⟨"c1", "img", "localhost", 8081⟩]⟩)]
          [] (fun _ => true) "demo").2.2
        (fun _ => true) "demo").1 = ⟨404, none⟩ := by
  decide

/-- C8 amended: when a new-style deployment exists under the id and no
old-style record shares it, the first delete replies 200 and removes the
record; the second identical call replies 404 and changes nothing.  Only
the store-level `DeleteNewDeployment` is idempotent. -/
theorem deleteDeployment_twice (newDeps : List (String × Nina.Deployment))
    (oldDeps : List (String × Nina.OldDeployment)) (removeOk : String → Bool)
    (id : String) (d : Nina.Deployment)
    (hid : id ≠ "")
    (hnew : Nina.storeGet newDeps id = some d)
    (hold : Nina.storeGet oldDeps id = none) :
    (Nina.deleteDeploymentHandler newDeps oldDeps removeOk id).1.code = 200 ∧
    (Nina.deleteDeploymentHandler
        (Nina.deleteDeploymentHandler newDeps oldDeps removeOk id).2.1
        (Nina.deleteDeploymentHandler newDeps oldDeps removeOk id).2.2
        removeOk id).1 = ⟨404, none⟩ ∧
    Nina.DeleteNewDeployment (Nina.DeleteNewDeployment newDeps id) id =
      Nina.DeleteNewDeployment newDeps id := by
  have h1 : Nina.deleteDeploymentHandler newDeps oldDeps removeOk id =
      (⟨200, some ((d.containers.filter
          (fun c => (c.containerID != "") && removeOk c.containerID)).length)⟩,
        Nina.DeleteNewDeployment newDeps id, oldDeps) := by
    simp [Nina.deleteDeploymentHandler, hid, hnew]
  have h2 : Nina.storeGet (Nina.DeleteNewDeployment newDeps id) id = none := by
    simp [Nina.DeleteNewDeployment, Nina.storeGet_storeDel]
  refine ⟨by rw [h1], ?_, ?_⟩
  · rw [h1]
    simp [Nina.deleteDeploymentHandler, hid, h2, hold]
  · exact Nina.storeDel_storeDel newDeps id

/-- Witness for `deleteDeployment_twice` at a concrete single-deployment
store. -/
theorem deleteDeployment_twice_witness :
    (Nina.deleteDeploymentHandler
        [("demo", ⟨"id1", "demo", "abc123", "a", "a@x", "m", "ready", []⟩)]
        [] (fun _ => true) "demo").1.code = 200 ∧
    (Nina.deleteDeploymentHandler
        (Nina.deleteDeploymentHandler
          [("demo", ⟨"id1", "demo", "abc123", "a", "a@x", "m", "ready", []⟩)]
          [] (fun _ => true) "demo").2.1
        (Nina.deleteDeploymentHandler
          [("demo", ⟨"id1", "demo", "abc123", "a", "a@x", "m", "ready", []⟩)]
          [] (fun _ => true) "demo").2.2
        (fun _ => true) "demo").1 = ⟨404, none⟩ ∧
    Nina.DeleteNewDeployment
        (Nina.DeleteNewDeployment
          [("demo", ⟨"id1", "demo", "abc123", "a", "a@x", "m", "ready", []⟩)] "demo")
        "demo" =
      Nina.DeleteNewDeployment
        [("demo", ⟨"id1", "demo", "abc123", "a", "a@x", "m", "ready", []⟩)] "demo" :=
  deleteDeployment_twice
    [("demo", ⟨"id1", "demo", "abc123", "a", "a@x", "m", "ready", []⟩)]
    [] (fun _ => true) "demo"
    ⟨"id1", "demo", "abc123", "a", "a@x", "m", "ready", []⟩
    (by decide) (by decide) (by decide)

/-! ## C7 theorems -/

/-- Hosts without a colon pass `extractHost` unchanged. -/
theorem extractHost_no_colon (app : String) (h : ':' ∉ app.data) :
    Nina.extractHost app = app := by
  have hc : app.data.contains ':' = false := by
    simp [List.contains]
    exact h
  simp [Nina.extractHost, hc]
  intro hmem
  exact absurd hmem h

/-- The exact JSON document of the `unknown_application` error. -/
theorem encode_unknown_application :
    Nina.encodeErrorResponse ⟨"unknown_application", "unknown application"⟩ =
      "\x7b\"error\":\"unknown_application\",\"message\":\"unknown application\"\x7d" := by
  decide

/-- The exact JSON document of the `no_replicas_available` error. -/
theorem encode_no_replicas :
    Nina.encodeErrorResponse ⟨"no_replicas_available", "no replicas available"⟩ =
      "\x7b\"error\":\"no_replicas_available\",\"message\":\"no replicas available\"\x7d" := by
  decide

/-- Function `extractHost` strips the `:port` suffix of a colon-free host. -/
theorem extractHost_strip (app port : String) (h : ':' ∉ app.data) :
    Nina.extractHost (app ++ ":" ++ port) = app := by
  have hdata : (app ++ ":" ++ port).data = app.data ++ ':' :: port.data := by
    simp [String.data_append]
  have hc : (app ++ ":" ++ port).data.contains ':' = true := by
    rw [hdata]; simp [List.contains]
  simp only [Nina.extractHost, hc, if_true]
  rw [hdata, Nina.splitOnChar_append_sep ':' app.data port.data h]
  simp

/-- C7: ingress routing strips the `:port` suffix of the request host
(`app:1234` routes as `app`), answers 404 with the exact
`unknown_application` JSON body when no deployment carries the host as
app name, and answers 503 with the exact `no_replicas_available` JSON
body when the matched deployment has no containers. -/
theorem ingress_routing (snapshot : List Nina.Deployment)
    (host app port : String) (r : Nat) :
    (':' ∉ app.data →
      Nina.handleRequest snapshot (app ++ ":" ++ port) r =
        Nina.handleRequest snapshot app r) ∧
    ((∀ d ∈ snapshot, d.appName ≠ Nina.extractHost host) →
      Nina.handleRequest snapshot host r =
        Nina.IngressResponse.jsonError 404
          "\x7b\"error\":\"unknown_application\",\"message\":\"unknown application\"\x7d") ∧
    (∀ d, Nina.findDeploymentByAppName snapshot (Nina.extractHost host) = some d →
      d.containers = [] →
      Nina.handleRequest snapshot host r =
        Nina.IngressResponse.jsonError 503
          "\x7b\"error\":\"no_replicas_available\",\"message\":\"no replicas available\"\x7d") := by
  refine ⟨?_, ?_, ?_⟩
  · intro h
    simp only [Nina.handleRequest, extractHost_strip app port h,
      extractHost_no_colon app h]
  · intro hnone
    have hfind : Nina.findDeploymentByAppName snapshot (Nina.extractHost host) =
        none := by
      apply List.find?_eq_none.mpr
      intro d hd
      simp [hnone d hd]
    simp only [Nina.handleRequest, hfind]
    rw [encode_unknown_application]
  · intro d hfind hempty
    have hsel : Nina.selectRandomReplica d r = none := by
      simp [Nina.selectRandomReplica, hempty]
    simp only [Nina.handleRequest, hfind, hsel]
    rw [encode_no_replicas]

/-- Witness for `ingress_routing` on a one-deployment snapshot with no
containers: `demo:1234` routes as `demo`, host `other` gets the 404 body,
host `demo` gets the 503 body. -/
theorem ingress_routing_witness :
    (Nina.handleRequest [⟨"id1", "demo", "abc123", "a", "a@x", "m", "ready", []⟩]
        ("demo" ++ ":" ++ "1234") 0 =
      Nina.handleRequest [⟨"id1", "demo", "abc123", "a", "a@x", "m", "ready", []⟩]
        "demo" 0) ∧
    (Nina.handleRequest [⟨"id1", "demo", "abc123", "a", "a@x", "m", "ready", []⟩]
        "other" 0 =
      Nina.IngressResponse.jsonError 404
        "\x7b\"error\":\"unknown_application\",\"message\":\"unknown application\"\x7d") ∧
    (Nina.handleRequest [⟨"id1", "demo", "abc123", "a", "a@x", "m", "ready", []⟩]
        "demo" 0 =
      Nina.IngressResponse.jsonError 503
        "\x7b\"error\":\"no_replicas_available\",\"message\":\"no replicas available\"\x7d") :=
  ⟨(ingress_routing [⟨"id1", "demo", "abc123", "a", "a@x", "m", "ready", []⟩]
      "demo" "demo" "1234" 0).1 (by decide),
   (ingress_routing [⟨"id1", "demo", "abc123", "a", "a@x", "m", "ready", []⟩]
      "other" "demo" "1234" 0).2.1 (by decide),
   (ingress_routing [⟨"id1", "demo", "abc123", "a", "a@x", "m", "ready", []⟩]
      "demo" "demo" "1234" 0).2.2
      ⟨"id1", "demo", "abc123", "a", "a@x", "m", "ready", []⟩ (by decide) (by decide)⟩

/-! ## C10 theorems -/

/-- The sequential presence/parse checks of `Match` compute the
conjunction of the four base-directory conditions. -/
theorem matchChecks_eq (base : Nina.BaseDirView) :
    (if ("go.mod" ∈ base.files) = false then false
     else if ("go.sum" ∈ base.files) = false then false
     else if ("main.go" ∈ base.files) = false then false
     else
       match base.mainGoPkg with
       | none => false
       | some pkg => pkg = "main") =
    (decide ("go.mod" ∈ base.files) && decide ("go.sum" ∈ base.files) &&
      decide ("main.go" ∈ base.files) && decide (base.mainGoPkg = some "main")) := by
  by_cases h1 : "go.mod" ∈ base.files <;>
    by_cases h2 : "go.sum" ∈ base.files <;>
      by_cases h3 : "main.go" ∈ base.files <;>
        cases hp : base.mainGoPkg <;>
          simp [h1, h2, h3, hp]

/-- The package-clause check succeeds exactly on a parse result of
`main`. -/
theorem matchPkg_eq (o : Option String) :
    ((match o with
      | none => false
      | some pkg => decide (pkg = "main")) = true) ↔ o = some "main" := by
  cases o <;> simp

/-- C10: Go buildpack detection succeeds iff the base directory — the
scratch root when it contains `go.mod`, else the first subdirectory of
the sorted listing — contains `go.mod`, `go.sum`, and `main.go`, and
`main.go` parses with package clause exactly `main`. -/
theorem golang_match_iff (fs : Nina.ScratchTree) :
    Nina.Match fs = true ↔ Nina.MatchSpec fs = true := by
  unfold Nina.Match Nina.MatchSpec
  by_cases hroot : "go.mod" ∈ fs.rootFiles
  · simp [hroot, matchChecks_eq, matchPkg_eq, and_assoc]
  · cases hsub : fs.rootSubdirs.head? with
    | none => simp [hroot, hsub, Nina.rootView]
    | some d => simp [hroot, hsub, matchChecks_eq, matchPkg_eq, and_assoc]

/-- Witness for `golang_match_iff`: a scratch root holding a complete Go
module satisfies both detection predicates. -/
theorem golang_match_iff_witness :
    Nina.Match ⟨["go.mod", "go.sum", "main.go"], [], some "main"⟩ = true ∧
    Nina.MatchSpec ⟨["go.mod", "go.sum", "main.go"], [], some "main"⟩ = true :=
  ⟨by decide,
   (golang_match_iff ⟨["go.mod", "go.sum", "main.go"], [], some "main"⟩).mp
     (by decide)⟩

/-! ## C1 theorems -/

/-- C1: the path-traversal guard accepts the documented join/normalize/prefix
check, but the string-prefix comparison lacks a trailing separator.  With
scratch root `/tmp/nina-bundle123` the crafted entry name
`../nina-bundle123x/f` joins and normalizes to `/tmp/nina-bundle123x/f`,
which passes `validateTargetPath` yet lies outside the scratch root, so the
entry is written outside the scratch root. -/
theorem validateTargetPath_sibling_escape :
    Nina.extractTarEntryTarget "/tmp/nina-bundle123" "../nina-bundle123x/f" =
      some "/tmp/nina-bundle123x/f" ∧
    Nina.withinDir "/tmp/nina-bundle123" "/tmp/nina-bundle123x/f" = false := by
  decide

/-! ## C5 theorems -/

/-- C5 counterexample: when untarring fails, `NewBundle` returns the error
with the scratch directory still on disk — it is not deleted before the
error is returned. -/
theorem newBundle_extract_error_leaves_dir :
    Nina.NewBundle { decodeOk := true, gzipOk := true, extractOk := false } =
      (some Nina.BundleErr.extractErr, true) := by
  decide

/-- C5 amended: a base64-decode or gunzip error occurs before the scratch
directory is created, so no scratch directory is left behind; but an
untar error is returned with the already-created scratch directory still
on disk. -/
theorem newBundle_error_dir_behavior (env : Nina.BundleEnv) :
    ((Nina.NewBundle env).1 = some Nina.BundleErr.decodeErr ∨
        (Nina.NewBundle env).1 = some Nina.BundleErr.gzipErr →
      (Nina.NewBundle env).2 = false) ∧
    ((Nina.NewBundle env).1 = some Nina.BundleErr.extractErr →
      (Nina.NewBundle env).2 = true) := by
  obtain ⟨d, g, e⟩ := env
  cases d <;> cases g <;> cases e <;> decide

/-- Witness for `newBundle_error_dir_behavior`: at a decode failure the
directory is absent, and at an extraction failure it is present. -/
theorem newBundle_error_dir_behavior_witness :
    (Nina.NewBundle ⟨false, true, true⟩).2 = false ∧
    (Nina.NewBundle ⟨true, true, false⟩).2 = true :=
  ⟨(newBundle_error_dir_behavior ⟨false, true, true⟩).1 (by decide),
   (newBundle_error_dir_behavior ⟨true, true, false⟩).2 (by decide)⟩
